import Mathlib

/-!
Shallow embedding of the RetroGit tool (retrogit/__init__.py).

Modelling conventions:
* A Python `datetime` is a rational number of days since the Unix epoch
  (1970-01-01 00:00:00); `timedelta(days = d)` is addition of `d`.
* The parsed TOML configuration is a record of `Option` fields: Python dict
  lookups `cfg["k"]` may raise `KeyError`, `cfg.get("k", v)` defaults, so a
  key may be absent at runtime even though the `TypedDict` declares it.
* `random.uniform a b` is `a + (b - a) * x` for a sample `x` of
  `random.random()`, i.e. `0 ≤ x < 1`; the sample is passed explicitly.
* The process environment is a record of the three variables the program
  reads or writes, plus an `other` association list for all remaining
  variables (never touched by the program).
* Filesystem state relevant to `load_config` is the optional parsed config
  file plus the set of existing directories; `mkdir(parents=True,
  exist_ok=True)` is union with the fixed parent-directory set.
* A git repository is the list of commit timestamps in `iter_commits` order
  (most recent first); `iter_commits(max_count=2)` is `List.take 2`.
* Fallible code returns `Except String`; `sys.exit`/uncaught exceptions are
  reflected in explicit result types with an `exitCode` interpretation.
-/

/-- The `timing` table of the configuration. Fields are `Option` because the
TOML file is trusted verbatim: a key may be missing at runtime. -/
structure TimingConfig where
  interval_days : Option ℚ
  randomness_days : Option ℚ
  initial_backdate_days : Option ℚ
deriving DecidableEq, Repr

/-- The whole configuration: the `timing` table may itself be absent from a
user-supplied file. -/
structure Config where
  timing : Option TimingConfig
deriving DecidableEq, Repr

/-- Filesystem state seen by `load_config`: the parsed config file when it
exists, and the set of existing directories. -/
structure FS where
  configFile : Option Config
  dirs : Finset String
deriving DecidableEq

/-- The parent directory chain of the config path created by
`config_path.parent.mkdir(parents=True, exist_ok=True)` (POSIX default path
`~/.config/retrogit/config.toml`). -/
def parentDirs : Finset String :=
  {"~/.config", "~/.config/retrogit"}

/-- The hardcoded default configuration returned when the file is missing. -/
def defaultConfig : Config :=
  { timing := some
      { interval_days := some 3
      , randomness_days := some 1
      , initial_backdate_days := some 30 } }

/-- `load_config`: if the config file does not exist, create its parent
directory tree and return the hardcoded default (without writing it to
disk); otherwise parse and return the file verbatim. -/
def load_config (fs : FS) : Config × FS :=
  match fs.configFile with
  | none => (defaultConfig, { fs with dirs := fs.dirs ∪ parentDirs })
  | some c => (c, fs)

/-- `calculate_next_commit_date last_date config x`: look up
`interval_days` and `randomness_days` (each lookup may raise `KeyError`),
draw `actual_interval = random.uniform (interval - randomness)
(interval + randomness)` with `x` the underlying `random.random()` sample,
and return `last_date + timedelta(days = actual_interval)`. -/
def calculate_next_commit_date (last_date : ℚ) (config : Config) (x : ℚ) :
    Except String ℚ :=
  match config.timing with
  | none => .error "KeyError: timing"
  | some t =>
    match t.interval_days with
    | none => .error "KeyError: interval_days"
    | some interval =>
      match t.randomness_days with
      | none => .error "KeyError: randomness_days"
      | some randomness =>
        let lo := interval - randomness
        let hi := interval + randomness
        let actual_interval := lo + (hi - lo) * x
        .ok (last_date + actual_interval)

/-- `get_last_commit_date skip_last repo now fs`: query up to the two most
recent commits (`iter_commits(max_count=2)`). With no commits, load the
config fresh and return `now - timedelta(days = timing.get
("initial_backdate_days", 30))` (the `timing` lookup itself may raise
`KeyError`). With `skip_last` and at least two commits, return the second
most recent commit's timestamp; otherwise the most recent one's. `repo` is
the valid repository's commit list, most recent first; `now` is
`datetime.now()`. -/
def get_last_commit_date (skip_last : Bool) (repo : List ℚ) (now : ℚ)
    (fs : FS) : Except String ℚ × FS :=
  match repo.take 2 with
  | [] =>
    let p := load_config fs
    match p.1.timing with
    | none => (.error "KeyError: timing", p.2)
    | some t =>
      let backdate_days := t.initial_backdate_days.getD 30
      (.ok (now - backdate_days), p.2)
  | [c0] => (.ok c0, fs)
  | c0 :: c1 :: _ =>
    if skip_last then (.ok c1, fs) else (.ok c0, fs)

/-- The process environment: the three variables the program reads or
writes, plus all remaining variables (untouched) as an association list. -/
structure Env where
  git_author_date : Option String
  git_committer_date : Option String
  retrogit_commit_amended : Option String
  other : List (String × String)
deriving DecidableEq, Repr

/-- Left-pad a natural number with zeros to width `w`. -/
def padNat (w : ℕ) (n : ℕ) : String :=
  let s := toString n
  String.mk (List.replicate (w - s.length) '0') ++ s

/-- Gregorian calendar date (year, month, day) of a day count relative to
the Unix epoch (standard civil-from-days conversion). -/
def civilFromDays (z : ℤ) : ℤ × ℕ × ℕ :=
  let z' := z + 719468
  let era : ℤ := (if 0 ≤ z' then z' else z' - 146096) / 146097
  let doe : ℕ := (z' - era * 146097).toNat
  let yoe : ℕ := (doe - doe / 1460 + doe / 36524 - doe / 146096) / 365
  let y : ℤ := (yoe : ℤ) + era * 400
  let doy : ℕ := doe - (365 * yoe + yoe / 4 - yoe / 100)
  let mp : ℕ := (5 * doy + 2) / 153
  let d : ℕ := doy - (153 * mp + 2) / 5 + 1
  let m : ℕ := if mp < 10 then mp + 3 else mp - 9
  (if m ≤ 2 then y + 1 else y, m, d)

/-- `next_date.strftime("%Y-%m-%d %H:%M:%S")`: format a timestamp (rational
days since the epoch) as a local date-time string truncated to whole
seconds. -/
def formatDate (dt : ℚ) : String :=
  let totalSecs : ℤ := Int.fdiv (dt.num * 86400) (dt.den : ℤ)
  let z : ℤ := Int.fdiv totalSecs 86400
  let sod : ℕ := (totalSecs - 86400 * z).toNat
  let ymd := civilFromDays z
  let y := ymd.1
  let m := ymd.2.1
  let d := ymd.2.2
  let hh := sod / 3600
  let mm := sod % 3600 / 60
  let ss := sod % 60
  (if y < 0 then "-" ++ padNat 4 (-y).toNat else padNat 4 y.toNat) ++ "-" ++
    padNat 2 m ++ "-" ++ padNat 2 d ++ " " ++
    padNat 2 hh ++ ":" ++ padNat 2 mm ++ ":" ++ padNat 2 ss

/-- `setup_git_dates skip_last env fs repo now x`: load the config,
determine the reference date (passing `skip_last`), compute the next date
with random sample `x`, format it, set `GIT_AUTHOR_DATE` and
`GIT_COMMITTER_DATE` to the formatted string, and return it. The updated
environment and filesystem state are returned alongside the string. -/
def setup_git_dates (skip_last : Bool) (env : Env) (fs : FS)
    (repo : List ℚ) (now x : ℚ) : Except String (String × Env × FS) :=
  match get_last_commit_date skip_last repo now (load_config fs).2 with
  | (.error e, _) => .error e
  | (.ok last_date, fs2) =>
    match calculate_next_commit_date last_date (load_config fs).1 x with
    | .error e => .error e
    | .ok next_date =>
      let date_str := formatDate next_date
      .ok (date_str,
        { env with git_author_date := some date_str,
                   git_committer_date := some date_str },
        fs2)

/-- Loading the configuration twice gives the same result and state as
loading it once: directory creation is idempotent and the file is never
written. -/
theorem load_config_idem (fs : FS) :
    load_config (load_config fs).2 = load_config fs := by
  cases h : fs.configFile <;>
    simp [load_config, h, Finset.union_assoc]

/-- `get_last_commit_date`, run on a state `load_config` has already
produced, leaves that state unchanged: its only possible state change is
the (idempotent) one of `load_config` itself. -/
theorem get_last_commit_date_state (skip : Bool) (repo : List ℚ)
    (now : ℚ) (fs : FS) :
    (get_last_commit_date skip repo now (load_config fs).2).2 =
      (load_config fs).2 := by
  unfold get_last_commit_date
  cases h2 : repo.take 2 with
  | nil =>
    simp only [load_config_idem]
    cases ht : (load_config fs).1.timing <;> simp [ht]
  | cons c0 tl =>
    cases tl with
    | nil => simp
    | cons c1 tl2 => cases skip <;> simp

/-- C1: for every config whose timing table carries `interval_days = i` and
`randomness_days = r` with `0 ≤ r < i`, and every reference timestamp and
every sample of `random.random()`, `calculate_next_commit_date` succeeds and
its result lies in the closed interval
`[reference + (i - r), reference + (i + r)]` (in days). -/
theorem calculate_next_commit_date_bounds
    (ref x i r : ℚ) (c : Config) (t : TimingConfig)
    (ht : c.timing = some t) (hi : t.interval_days = some i)
    (hr : t.randomness_days = some r)
    (hr0 : 0 ≤ r) (hri : r < i) (hx0 : 0 ≤ x) (hx1 : x < 1) :
    ∃ d, calculate_next_commit_date ref c x = .ok d ∧
      ref + (i - r) ≤ d ∧ d ≤ ref + (i + r) := by
  refine ⟨ref + ((i - r) + ((i + r) - (i - r)) * x), ?_, ?_, ?_⟩
  · simp [calculate_next_commit_date, ht, hi, hr]
  · nlinarith
  · nlinarith

/-- Witness for C1 at `ref = 10`, config `{interval_days = 3,
randomness_days = 1}`, sample `x = 1/2`: the computed date is `13` and the
bounds hold. -/
theorem calculate_next_commit_date_bounds_witness :
    ∃ d, calculate_next_commit_date 10
        ⟨some ⟨some 3, some 1, some 30⟩⟩ (1/2) = .ok d ∧
      10 + ((3:ℚ) - 1) ≤ d ∧ d ≤ 10 + ((3:ℚ) + 1) :=
  calculate_next_commit_date_bounds 10 (1/2) 3 1
    ⟨some ⟨some 3, some 1, some 30⟩⟩ ⟨some 3, some 1, some 30⟩
    rfl rfl rfl (by norm_num) (by norm_num) (by norm_num) (by norm_num)

/-- C2: with `skip_last = true`, `get_last_commit_date` returns the second
most recent commit's committed timestamp when at least two commits exist,
and the single commit's timestamp when exactly one exists. -/
theorem get_last_commit_date_skip_tip
    (c0 c1 : ℚ) (rest : List ℚ) (now : ℚ) (fs : FS) :
    (get_last_commit_date true (c0 :: c1 :: rest) now fs).1 = .ok c1 ∧
    (get_last_commit_date true [c0] now fs).1 = .ok c0 := by
  constructor <;> simp [get_last_commit_date]

/-- C3: on a valid repository with zero commits and for either value of the
skip flag, `get_last_commit_date` loads the configuration fresh via
`load_config` and returns `now` minus the loaded `initial_backdate_days`
(here present with value `b`); the resulting filesystem state is exactly
the one `load_config` produces. -/
theorem get_last_commit_date_zero_commits
    (skip : Bool) (now b : ℚ) (fs : FS) (t : TimingConfig)
    (ht : (load_config fs).1.timing = some t)
    (hb : t.initial_backdate_days = some b) :
    (get_last_commit_date skip [] now fs).1 = .ok (now - b) ∧
    (get_last_commit_date skip [] now fs).2 = (load_config fs).2 := by
  constructor <;> simp [get_last_commit_date, ht, hb]

/-- Witness for C3 at `fs = ⟨none, ∅⟩` (no config file on disk, so the
freshly loaded config is the default with `initial_backdate_days = 30`),
`now = 5`: the reference date is `5 - 30 = -25`, for both skip flags. -/
theorem get_last_commit_date_zero_commits_witness :
    ((get_last_commit_date true [] 5 ⟨none, ∅⟩).1 = .ok (5 - 30) ∧
      (get_last_commit_date true [] 5 ⟨none, ∅⟩).2 =
        (load_config ⟨none, ∅⟩).2) ∧
    ((get_last_commit_date false [] 5 ⟨none, ∅⟩).1 = .ok (5 - 30) ∧
      (get_last_commit_date false [] 5 ⟨none, ∅⟩).2 =
        (load_config ⟨none, ∅⟩).2) :=
  ⟨get_last_commit_date_zero_commits true 5 30 ⟨none, ∅⟩
      ⟨some 3, some 1, some 30⟩ rfl rfl,
    get_last_commit_date_zero_commits false 5 30 ⟨none, ∅⟩
      ⟨some 3, some 1, some 30⟩ rfl rfl⟩

/-- C4: whenever the config file does not exist, `load_config` returns
exactly the hardcoded default record `{interval_days = 3, randomness_days
= 1, initial_backdate_days = 30}`, creates the file's parent directory
tree (idempotently: a second run leaves the state fixed), and does not
write the default configuration back to disk (the config file stays
absent). -/
theorem load_config_missing_file (fs : FS) (h : fs.configFile = none) :
    (load_config fs).1 = defaultConfig ∧
    (load_config fs).2.configFile = none ∧
    (load_config fs).2.dirs = fs.dirs ∪ parentDirs ∧
    load_config (load_config fs).2 = load_config fs := by
  refine ⟨?_, ?_, ?_, ?_⟩ <;>
    simp [load_config, h, Finset.union_assoc]

/-- Witness for C4 at the empty filesystem state. -/
theorem load_config_missing_file_witness :
    (load_config ⟨none, ∅⟩).1 = defaultConfig ∧
    (load_config ⟨none, ∅⟩).2.configFile = none ∧
    (load_config ⟨none, ∅⟩).2.dirs = (∅ : Finset String) ∪ parentDirs ∧
    load_config (load_config ⟨none, ∅⟩).2 = load_config ⟨none, ∅⟩ :=
  load_config_missing_file ⟨none, ∅⟩ rfl

/-- C10: when the on-disk config's timing table exists but omits
`initial_backdate_days` (whatever the other keys hold), the zero-commit
branch of `get_last_commit_date` does not fail: it silently falls back to
a 30-day backdate window — while for any config whose timing table omits
`interval_days` or `randomness_days`, `calculate_next_commit_date` fails
with a `KeyError` lookup error. -/
theorem missing_backdate_key_defaults_to_30
    (skip : Bool) (now ref x : ℚ) (fs : FS) (c : Config) (t : TimingConfig)
    (hf : fs.configFile = some c) (ht : c.timing = some t)
    (hb : t.initial_backdate_days = none) :
    (get_last_commit_date skip [] now fs).1 = .ok (now - 30) ∧
    ∀ (c2 : Config) (t2 : TimingConfig), c2.timing = some t2 →
      t2.interval_days = none ∨ t2.randomness_days = none →
      ∃ e, calculate_next_commit_date ref c2 x = .error e := by
  constructor
  · simp [get_last_commit_date, load_config, hf, ht, hb]
  · intro c2 t2 ht2 hir
    rcases hir with hi | hr
    · exact ⟨"KeyError: interval_days",
        by simp [calculate_next_commit_date, ht2, hi]⟩
    · rcases hi : t2.interval_days with _ | i
      · exact ⟨"KeyError: interval_days",
          by simp [calculate_next_commit_date, ht2, hi]⟩
      · exact ⟨"KeyError: randomness_days",
          by simp [calculate_next_commit_date, ht2, hi, hr]⟩

/-- Witness for C10: a config file whose timing table holds
`interval_days = 5, randomness_days = 1` but no `initial_backdate_days`
makes the reference date fall back to `now - 30`; and computing the next
date against a timing table that omits `interval_days` fails. -/
theorem missing_backdate_key_defaults_to_30_witness :
    (get_last_commit_date true []
        (7 : ℚ) ⟨some ⟨some ⟨some 5, some 1, none⟩⟩, ∅⟩).1 =
      .ok (7 - 30) ∧
    ∃ e, calculate_next_commit_date 7 ⟨some ⟨none, some 1, none⟩⟩ 0 =
      .error e :=
  ⟨(missing_backdate_key_defaults_to_30 true 7 7 0
      ⟨some ⟨some ⟨some 5, some 1, none⟩⟩, ∅⟩
      ⟨some ⟨some 5, some 1, none⟩⟩
      ⟨some 5, some 1, none⟩ rfl rfl rfl).1,
    (missing_backdate_key_defaults_to_30 true 7 7 0
      ⟨some ⟨some ⟨some 5, some 1, none⟩⟩, ∅⟩
      ⟨some ⟨some 5, some 1, none⟩⟩
      ⟨some 5, some 1, none⟩ rfl rfl rfl).2
      ⟨some ⟨none, some 1, none⟩⟩ ⟨none, some 1, none⟩ rfl
      (Or.inl rfl)⟩

/-- `load_config` never writes the configuration file. -/
theorem load_config_configFile (fs : FS) :
    (load_config fs).2.configFile = fs.configFile := by
  cases h : fs.configFile <;> simp [load_config, h]

/-- C7 counterexample: with no config file on disk, a successful run of
`setup_git_dates` changes filesystem state — it creates the config parent
directories — so environment-variable writes are not its only side
effects. Concrete run: empty environment, empty filesystem, one commit at
the epoch, sample 0. -/
theorem setup_git_dates_side_effects_counterexample :
    setup_git_dates false ⟨none, none, none, []⟩ ⟨none, ∅⟩ [0] 1 0 =
      .ok ("1970-01-03 00:00:00",
        ⟨some "1970-01-03 00:00:00", some "1970-01-03 00:00:00", none, []⟩,
        ⟨none, parentDirs⟩) ∧
    (FS.mk none parentDirs) ≠ (FS.mk none ∅) := by
  constructor
  · norm_num [setup_git_dates, get_last_commit_date, load_config,
      defaultConfig, calculate_next_commit_date]
    rfl
  · simp [parentDirs, FS.mk.injEq]

/-- C7 (amended): a successful `setup_git_dates` run writes the one string
it returns into both `GIT_AUTHOR_DATE` and `GIT_COMMITTER_DATE`, touches no
other environment variable, and never writes the config file; but its
filesystem effect is not necessarily empty — it is exactly the (idempotent)
parent-directory creation of `load_config`. -/
theorem setup_git_dates_effects
    (skip : Bool) (env : Env) (fs : FS) (repo : List ℚ) (now x : ℚ)
    (s : String) (env' : Env) (fs' : FS)
    (h : setup_git_dates skip env fs repo now x = .ok (s, env', fs')) :
    env'.git_author_date = some s ∧
    env'.git_committer_date = some s ∧
    env'.retrogit_commit_amended = env.retrogit_commit_amended ∧
    env'.other = env.other ∧
    fs'.configFile = fs.configFile ∧
    fs' = (load_config fs).2 := by
  unfold setup_git_dates at h
  split at h
  · simp at h
  · rename_i last fs2 heq
    split at h
    · simp at h
    · rename_i nd hc
      simp only [Except.ok.injEq, Prod.mk.injEq] at h
      obtain ⟨hs, henv, hfs⟩ := h
      have hfs2 : fs2 = (load_config fs).2 := by
        have hst := get_last_commit_date_state skip repo now fs
        rw [heq] at hst
        exact hst
      subst hs
      subst henv
      subst hfs
      refine ⟨rfl, rfl, rfl, rfl, ?_, hfs2⟩
      rw [hfs2, load_config_configFile]

/-- Witness for the amended C7 at a filesystem state that already has a
config file (so `load_config` leaves the state fixed): the computed string
`1970-01-03 00:00:00` is written to both variables, nothing else changes. -/
theorem setup_git_dates_effects_witness :
    (Env.mk (some "1970-01-03 00:00:00") (some "1970-01-03 00:00:00")
        none []).git_author_date = some "1970-01-03 00:00:00" ∧
    (Env.mk (some "1970-01-03 00:00:00") (some "1970-01-03 00:00:00")
        none []).git_committer_date = some "1970-01-03 00:00:00" ∧
    (Env.mk (some "1970-01-03 00:00:00") (some "1970-01-03 00:00:00")
        none []).retrogit_commit_amended =
      (Env.mk none none none []).retrogit_commit_amended ∧
    (Env.mk (some "1970-01-03 00:00:00") (some "1970-01-03 00:00:00")
        none []).other = (Env.mk none none none []).other ∧
    (FS.mk (some ⟨some ⟨some 3, some 1, some 30⟩⟩) ∅).configFile =
      (FS.mk (some ⟨some ⟨some 3, some 1, some 30⟩⟩) ∅).configFile ∧
    (FS.mk (some ⟨some ⟨some 3, some 1, some 30⟩⟩) ∅) =
      (load_config (FS.mk (some ⟨some ⟨some 3, some 1, some 30⟩⟩) ∅)).2 :=
  setup_git_dates_effects false (Env.mk none none none [])
    (FS.mk (some ⟨some ⟨some 3, some 1, some 30⟩⟩) ∅) [0] 1 0
    "1970-01-03 00:00:00"
    (Env.mk (some "1970-01-03 00:00:00") (some "1970-01-03 00:00:00")
      none [])
    (FS.mk (some ⟨some ⟨some 3, some 1, some 30⟩⟩) ∅)
    (by norm_num [setup_git_dates, get_last_commit_date, load_config,
          defaultConfig, calculate_next_commit_date]
        rfl)

/-- Outcome of one run of the post-commit verb: the instructional
missing-environment error (exit 1), the silent re-entrancy skip (exit 0,
no amend), a performed amend carrying the published date string and the
updated environment and filesystem (exit 0), or the generic exception path
of the hook body (exit 1). -/
inductive PostCommitResult where
  | missingEnvError
  | reentrantSkip
  | amended (date_str : String) (env : Env) (fs : FS)
  | hookError (msg : String)
deriving DecidableEq

/-- Process exit status of each post-commit outcome. -/
def PostCommitResult.exitCode : PostCommitResult → ℤ
  | .missingEnvError => 1
  | .reentrantSkip => 0
  | .amended _ _ _ => 0
  | .hookError _ => 1

/-- Whether the run performed the amend action. -/
def PostCommitResult.didAmend : PostCommitResult → Bool
  | .amended _ _ _ => true
  | _ => false

/-- `cmd_post_commit`: if `GIT_AUTHOR_DATE` is not in the environment,
fail with the instructional error; if `RETROGIT_COMMIT_AMENDED` equals
`"1"`, exit 0 immediately; otherwise compute and publish the timestamp
with `setup_git_dates(skip_last=True)` and run `git commit --amend
--no-edit --date date_str` (its exit code is `amendExit`; `check=True`
turns a nonzero code into an exception caught by the generic handler). -/
def cmd_post_commit (env : Env) (fs : FS) (repo : List ℚ) (now x : ℚ)
    (amendExit : ℤ) : PostCommitResult :=
  if env.git_author_date = none then .missingEnvError
  else if env.retrogit_commit_amended = some "1" then .reentrantSkip
  else
    match setup_git_dates true env fs repo now x with
    | .error e => .hookError e
    | .ok (date_str, env', fs') =>
      if amendExit = 0 then .amended date_str env' fs'
      else .hookError "CalledProcessError"

/-- C5 counterexample: in an environment where `GIT_COMMITTER_DATE` is set
but `GIT_AUTHOR_DATE` is not, the post-commit verb takes the instructional
error path even though it is false that the two timestamp variables are
absent — the code consults only `GIT_AUTHOR_DATE`. -/
theorem cmd_post_commit_error_path_counterexample :
    cmd_post_commit ⟨none, some "2024-01-01 00:00:00", none, []⟩
        ⟨none, ∅⟩ [] 0 0 0 = .missingEnvError ∧
    ¬((Env.mk none (some "2024-01-01 00:00:00") none
          []).git_author_date = none ∧
      (Env.mk none (some "2024-01-01 00:00:00") none
          []).git_committer_date = none) := by
  constructor
  · rfl
  · simp

/-- C5 (amended): the post-commit verb takes the instructional error path
(exit status 1) if and only if `GIT_AUTHOR_DATE` is absent from the
environment; `GIT_COMMITTER_DATE` is never consulted. -/
theorem cmd_post_commit_error_path_iff
    (env : Env) (fs : FS) (repo : List ℚ) (now x : ℚ) (amendExit : ℤ) :
    (cmd_post_commit env fs repo now x amendExit = .missingEnvError ↔
      env.git_author_date = none) ∧
    (env.git_author_date = none →
      (cmd_post_commit env fs repo now x amendExit).exitCode = 1) := by
  constructor
  · constructor
    · intro h
      by_contra hne
      rcases Option.ne_none_iff_exists'.mp hne with ⟨a, ha⟩
      simp only [cmd_post_commit, ha] at h
      rw [if_neg (by simp)] at h
      split at h
      · simp at h
      · split at h
        · simp at h
        · split at h <;> simp at h
    · intro ha
      simp [cmd_post_commit, ha]
  · intro ha
    simp [cmd_post_commit, ha, PostCommitResult.exitCode]

/-- Witness for the amended C5: with `GIT_AUTHOR_DATE` absent, the exit
status is 1. -/
theorem cmd_post_commit_error_path_iff_witness :
    (cmd_post_commit ⟨none, none, none, []⟩ ⟨none, ∅⟩ [] 0 0
        0).exitCode = 1 :=
  (cmd_post_commit_error_path_iff ⟨none, none, none, []⟩ ⟨none, ∅⟩
      [] 0 0 0).2 rfl

/-- C6: whenever the re-entrancy marker `RETROGIT_COMMIT_AMENDED` is
`"1"` and `GIT_AUTHOR_DATE` is present, the post-commit verb exits 0
immediately and performs no amend action. -/
theorem cmd_post_commit_reentrant
    (env : Env) (fs : FS) (repo : List ℚ) (now x : ℚ) (amendExit : ℤ)
    (hm : env.retrogit_commit_amended = some "1")
    (ha : env.git_author_date ≠ none) :
    cmd_post_commit env fs repo now x amendExit = .reentrantSkip ∧
    (cmd_post_commit env fs repo now x amendExit).exitCode = 0 ∧
    (cmd_post_commit env fs repo now x amendExit).didAmend = false := by
  have hskip : cmd_post_commit env fs repo now x amendExit =
      .reentrantSkip := by
    cases h : env.git_author_date with
    | none => exact absurd h ha
    | some a => simp [cmd_post_commit, h, hm]
  exact ⟨hskip, by rw [hskip]; rfl, by rw [hskip]; rfl⟩

/-- Witness for C6: marker `"1"`, author date present — exit 0, no
amend. -/
theorem cmd_post_commit_reentrant_witness :
    cmd_post_commit ⟨some "d", none, some "1", []⟩ ⟨none, ∅⟩ [] 0 0 0 =
      .reentrantSkip ∧
    (cmd_post_commit ⟨some "d", none, some "1", []⟩ ⟨none, ∅⟩ [] 0 0
        0).exitCode = 0 ∧
    (cmd_post_commit ⟨some "d", none, some "1", []⟩ ⟨none, ∅⟩ [] 0 0
        0).didAmend = false :=
  cmd_post_commit_reentrant ⟨some "d", none, some "1", []⟩ ⟨none, ∅⟩
    [] 0 0 0 rfl (by simp)

/-- Outcome of the commit verb: usage error (exit 1, nothing delegated),
an uncaught exception while preparing dates (the interpreter exits 1), or
delegation to `git commit` whose own exit code becomes the process's. -/
inductive CommitResult where
  | usageError
  | setupFailure (msg : String)
  | delegated (code : ℤ)
deriving DecidableEq, Repr

/-- Process exit status of each commit-verb outcome. -/
def CommitResult.exitCode : CommitResult → ℤ
  | .usageError => 1
  | .setupFailure _ => 1
  | .delegated code => code

/-- `cmd_commit argv ... gitExit`: with fewer than three argv entries
(`retrogit commit` plus at least one git argument) print usage and exit 1;
otherwise set up the dates (`skip_last=False`) and run `git commit` with
the remaining arguments; whether that command succeeds or `check=True`
raises `CalledProcessError`, the process exits with the command's own
`returncode` (`gitExit`). -/
def cmd_commit (argv : List String) (env : Env) (fs : FS) (repo : List ℚ)
    (now x : ℚ) (gitExit : ℤ) : CommitResult :=
  if argv.length < 3 then .usageError
  else
    match setup_git_dates false env fs repo now x with
    | .error e => .setupFailure e
    | .ok _ => .delegated gitExit

/-- C9: the commit verb exits 1 when invoked with no commit arguments;
otherwise, whenever date setup succeeds and the commit is delegated, the
process exit status is exactly the delegated command's exit code, passed
through verbatim. -/
theorem cmd_commit_exit_codes
    (argv : List String) (env : Env) (fs : FS) (repo : List ℚ)
    (now x : ℚ) (gitExit : ℤ) :
    (argv.length < 3 →
      (cmd_commit argv env fs repo now x gitExit).exitCode = 1) ∧
    (∀ v, setup_git_dates false env fs repo now x = .ok v →
      3 ≤ argv.length →
      (cmd_commit argv env fs repo now x gitExit).exitCode = gitExit) := by
  constructor
  · intro h
    simp [cmd_commit, h, CommitResult.exitCode]
  · intro v hv h
    have h3 : ¬ argv.length < 3 := not_lt.mpr h
    simp [cmd_commit, h3, hv, CommitResult.exitCode]

/-- Witness for C9: `retrogit commit` alone exits 1; with an argument and
a successful setup, a delegated exit code of 7 is passed through. -/
theorem cmd_commit_exit_codes_witness :
    (cmd_commit ["retrogit", "commit"] ⟨none, none, none, []⟩
        ⟨some ⟨some ⟨some 3, some 1, some 30⟩⟩, ∅⟩ [0] 1 0 7).exitCode
      = 1 ∧
    (cmd_commit ["retrogit", "commit", "-m"] ⟨none, none, none, []⟩
        ⟨some ⟨some ⟨some 3, some 1, some 30⟩⟩, ∅⟩ [0] 1 0 7).exitCode
      = 7 :=
  ⟨(cmd_commit_exit_codes ["retrogit", "commit"] ⟨none, none, none, []⟩
      ⟨some ⟨some ⟨some 3, some 1, some 30⟩⟩, ∅⟩ [0] 1 0 7).1
      (by norm_num),
    (cmd_commit_exit_codes ["retrogit", "commit", "-m"]
      ⟨none, none, none, []⟩
      ⟨some ⟨some ⟨some 3, some 1, some 30⟩⟩, ∅⟩ [0] 1 0 7).2
      ("1970-01-03 00:00:00",
        ⟨some "1970-01-03 00:00:00", some "1970-01-03 00:00:00",
          none, []⟩,
        ⟨some ⟨some ⟨some 3, some 1, some 30⟩⟩, ∅⟩)
      (by norm_num [setup_git_dates, get_last_commit_date, load_config,
            defaultConfig, calculate_next_commit_date]
          rfl)
      (by norm_num)⟩

/-- The shell script the install verb writes (the f-string in
`cmd_install_hook`): shebang, comment, and one line re-invoking this
program as `post-commit` through the running interpreter
(`sys.executable`) and the module's absolute path (`__file__`). -/
def hookScript (executable modulePath : String) : String :=
  "#!/bin/sh\n# RetroGit post-commit hook\n" ++ executable ++ " " ++
    modulePath ++ " post-commit\n"

/-- `open(path, "w")` followed by `write`: replace any existing file named
`name` in the directory listing with the given content and mode. A
directory listing is a list of (file name, content, permission mode). -/
def writeFileEntry (files : List (String × String × ℕ))
    (name content : String) (mode : ℕ) : List (String × String × ℕ) :=
  files.filter (fun f => f.1 ≠ name) ++ [(name, content, mode)]

/-- `path.chmod mode`: set the mode of the file named `name`. -/
def chmodEntry (files : List (String × String × ℕ)) (name : String)
    (mode : ℕ) : List (String × String × ℕ) :=
  files.map (fun f => if f.1 = name then (f.1, f.2.1, mode) else f)

/-- `cmd_install_hook`: write the hook script into `hooks/post-commit`
(truncating any previous file; a fresh file starts at the umask default
mode `0o644` = 420) and then make it executable with `chmod 0o755`
(= 493). `hooksDir` is the listing of the repository's hook directory. -/
def cmd_install_hook (executable modulePath : String)
    (hooksDir : List (String × String × ℕ)) :
    List (String × String × ℕ) :=
  chmodEntry
    (writeFileEntry hooksDir "post-commit"
      (hookScript executable modulePath) 420)
    "post-commit" 493

/-- The final `chmod` only retouches the file just written: all files with
a different name pass through unchanged. -/
theorem chmod_skips_other_files (n : String) (m : ℕ)
    (d : List (String × String × ℕ)) :
    (d.filter (fun f => f.1 ≠ n)).map
      (fun f => if f.1 = n then (f.1, f.2.1, m) else f) =
      d.filter (fun f => f.1 ≠ n) := by
  induction d with
  | nil => rfl
  | cons a tl ih => by_cases h : a.1 = n <;> simpa [h] using ih

/-- Filtering out the files named `n` is idempotent. -/
theorem filter_ne_filter_ne (n : String) (d : List (String × String × ℕ)) :
    (d.filter (fun f => f.1 ≠ n)).filter (fun f => f.1 ≠ n) =
      d.filter (fun f => f.1 ≠ n) := by
  induction d with
  | nil => rfl
  | cons a tl ih => by_cases h : a.1 = n <;> simp [h, ih]

/-- After the files named `n` are filtered out, none named `n` remain. -/
theorem filter_eq_of_filter_ne (n : String)
    (d : List (String × String × ℕ)) :
    (d.filter (fun f => f.1 ≠ n)).filter (fun f => f.1 = n) = [] := by
  induction d with
  | nil => rfl
  | cons a tl ih => by_cases h : a.1 = n <;> simp [h, ih]

/-- Closed form of one install run: the previous `post-commit` file (if
any) is dropped, everything else is untouched, and the executable hook
script is appended. -/
theorem cmd_install_hook_closed_form (executable modulePath : String)
    (d : List (String × String × ℕ)) :
    cmd_install_hook executable modulePath d =
      d.filter (fun f => f.1 ≠ "post-commit") ++
        [("post-commit", hookScript executable modulePath, 493)] := by
  unfold cmd_install_hook chmodEntry writeFileEntry
  rw [List.map_append, chmod_skips_other_files]
  simp

/-- C8: running the install verb twice leaves the same hook directory as
running it once; after an install the directory holds exactly one file
named `post-commit`, with mode `0o755` (= 493) and the hook-script content
(whose last line re-invokes this program's `post-commit` path), and every
other file is untouched. -/
theorem cmd_install_hook_idempotent (executable modulePath : String)
    (d : List (String × String × ℕ)) :
    cmd_install_hook executable modulePath
        (cmd_install_hook executable modulePath d) =
      cmd_install_hook executable modulePath d ∧
    (cmd_install_hook executable modulePath d).filter
        (fun f => f.1 = "post-commit") =
      [("post-commit", hookScript executable modulePath, 493)] ∧
    (cmd_install_hook executable modulePath d).filter
        (fun f => f.1 ≠ "post-commit") =
      d.filter (fun f => f.1 ≠ "post-commit") ∧
    ∃ pre, hookScript executable modulePath = pre ++ " post-commit\n" := by
  refine ⟨?_, ?_, ?_,
    ⟨"#!/bin/sh\n# RetroGit post-commit hook\n" ++ executable ++ " " ++
      modulePath, rfl⟩⟩
  · rw [cmd_install_hook_closed_form, cmd_install_hook_closed_form,
      List.filter_append, filter_ne_filter_ne]
    simp
  · rw [cmd_install_hook_closed_form, List.filter_append,
      filter_eq_of_filter_ne]
    simp
  · rw [cmd_install_hook_closed_form, List.filter_append,
      filter_ne_filter_ne]
    simp
